import Mathlib

/-!
Shallow embedding of the todo-net backend (TodoApi), covering the
authentication service, the task query engine and the task mutation
service, together with theorems settling the specification claims.

Conventions of the embedding:
* `DateTime` values are modelled as `Int` (seconds); `DateTime?` as `Option Int`.
* C# nullable reference/value types become `Option`.
* The EF-Core stores (`Users`, `Tasks` tables) become Lean lists; each
  service method takes the store as an argument and returns the updated
  store where the source mutates it.
* Async methods are sequential: `Task<T>` becomes plain `T`.
* BCrypt hashing/verification is external to the repository, so it is a
  function parameter of the operations that use it.
-/

namespace TodoNet

/-- Embedding of `TodoApi.Models.TodoTask` (TodoTask entity). -/
structure TodoTask where
  id : Nat
  userId : Nat
  title : String
  description : Option String
  dueDate : Option Int
  priority : Int
  isCompleted : Bool
  createdAt : Int
  updatedAt : Option Int
deriving Repr, DecidableEq

/-- Embedding of `TodoApi.Models.User` (User entity). -/
structure User where
  id : Nat
  email : String
  passwordHash : String
  createdAt : Int
deriving Repr, DecidableEq

/-- Embedding of `TaskResponse` (Models/DTOs): the task DTO returned to
callers. `PriorityLabel` is a derived property, modelled by
`priorityLabel` below. -/
structure TaskResponse where
  id : Nat
  title : String
  description : Option String
  dueDate : Option Int
  priority : Int
  isCompleted : Bool
  createdAt : Int
  updatedAt : Option Int
deriving Repr, DecidableEq

/-- Embedding of the computed property `TaskResponse.PriorityLabel`. -/
def priorityLabel (p : Int) : String :=
  if p == 1 then "Low"
  else if p == 2 then "Medium"
  else if p == 3 then "High"
  else "Unknown"

/-- Embedding of `TaskService.MapToResponse`. -/
def mapToResponse (t : TodoTask) : TaskResponse :=
  { id := t.id
    title := t.title
    description := t.description
    dueDate := t.dueDate
    priority := t.priority
    isCompleted := t.isCompleted
    createdAt := t.createdAt
    updatedAt := t.updatedAt }

/-- Embedding of `TaskQueryParams` (Models/DTOs): optional filters plus
sort field and direction (C# defaults `SortBy = "createdAt"`,
`SortDirection = "desc"`). -/
structure TaskQueryParams where
  isCompleted : Option Bool
  priority : Option Int
  dueBefore : Option Int
  dueAfter : Option Int
  search : Option String
  sortBy : String := "createdAt"
  sortDirection : String := "desc"
deriving Repr, DecidableEq

/-- Embedding of `CreateTaskRequest` (Models/DTOs). `Title` is a
non-nullable string in C# (defaulting to `""`), the rest are optional. -/
structure CreateTaskRequest where
  title : String
  description : Option String
  dueDate : Option Int
  priority : Int := 2
deriving Repr, DecidableEq

/-- Embedding of `UpdateTaskRequest` (Models/DTOs): every field optional;
`null` (here `none`) means "field absent from the request". -/
structure UpdateTaskRequest where
  title : Option String
  description : Option String
  dueDate : Option Int
  priority : Option Int
  isCompleted : Option Bool
deriving Repr, DecidableEq

/-- Character-list implementation of lowercasing, embedding C#
`ToLower`/`ToLowerInvariant` (the repository compares ASCII email and
sort-field strings). Defined on the character list so that it reduces
in the kernel. -/
def strToLower (s : String) : String := ⟨s.data.map Char.toLower⟩

/-- Character-list implementation of `.NET` `Trim()`: drop leading and
trailing whitespace. Defined on the character list so that it reduces
in the kernel. -/
def strTrim (s : String) : String :=
  ⟨((s.data.dropWhile Char.isWhitespace).reverse.dropWhile Char.isWhitespace).reverse⟩

/-- Boolean "is a prefix of": `listStartsWith pat l` means `l` starts
with `pat`. Used to embed C# `string.Contains`. -/
def listStartsWith : List Char → List Char → Bool
  | [], _ => true
  | _ :: _, [] => false
  | a :: as, b :: bs => a == b && listStartsWith as bs

/-- Boolean substring test on character lists, embedding C#
`string.Contains(pat)` (true when `pat` occurs contiguously). -/
def listContainsSub (pat : List Char) : List Char → Bool
  | [] => pat.isEmpty
  | b :: bs => listStartsWith pat (b :: bs) || listContainsSub pat bs

/-- Embedding of C# `hay.Contains(pat)` on strings. -/
def strContains (hay pat : String) : Bool :=
  listContainsSub pat.data hay.data

/-- Embedding of C# `string.IsNullOrWhiteSpace` on a nullable string. -/
def isNullOrWhiteSpace : Option String → Bool
  | none => true
  | some s => strTrim s == ""

/-- Embedding of the C# email normalization
`email.ToLowerInvariant().Trim()` used throughout `AuthService`. -/
def normalizeEmail (email : String) : String :=
  strTrim (strToLower email)

/-- Embedding of `TaskService.GetUserTaskAsync`: first task whose id and
owner both match (`FirstOrDefault(t => t.Id == taskId && t.UserId == userId)`). -/
def getUserTask (db : List TodoTask) (userId taskId : Nat) : Option TodoTask :=
  db.find? (fun t => t.id == taskId && t.userId == userId)

/-- Embedding of `TaskService.GetTaskByIdAsync`. -/
def getTaskById (db : List TodoTask) (userId taskId : Nat) : Option TaskResponse :=
  (getUserTask db userId taskId).map mapToResponse

/-- Replaces, in the store, the (first) task matching the given id and
owner by `t'` — the effect of EF Core persisting the tracked, mutated
entity on `SaveChangesAsync`. -/
def replaceTask (db : List TodoTask) (userId taskId : Nat) (t' : TodoTask) : List TodoTask :=
  match db with
  | [] => []
  | t :: ts =>
    if t.id == taskId && t.userId == userId then t' :: ts
    else t :: replaceTask ts userId taskId t'

/-- Removes from the store the (first) task matching the given id and
owner — the effect of `_context.Tasks.Remove(task)` + save. -/
def removeTask (db : List TodoTask) (userId taskId : Nat) : List TodoTask :=
  match db with
  | [] => []
  | t :: ts =>
    if t.id == taskId && t.userId == userId then ts
    else t :: removeTask ts userId taskId

/-- Embedding of the field-update block of `TaskService.UpdateTaskAsync`
(lines 125–151): each request field overwrites the entity only when
present (non-null), and `UpdatedAt` is stamped unconditionally. -/
def applyUpdate (task : TodoTask) (req : UpdateTaskRequest) (now : Int) : TodoTask :=
  let task := match req.title with
    | some s => { task with title := strTrim s }
    | none => task
  let task := match req.description with
    | some s => { task with description := some (strTrim s) }
    | none => task
  let task := match req.dueDate with
    | some d => { task with dueDate := some d }
    | none => task
  let task := match req.priority with
    | some p => { task with priority := p }
    | none => task
  let task := match req.isCompleted with
    | some c => { task with isCompleted := c }
    | none => task
  { task with updatedAt := some now }

/-- Embedding of `TaskService.UpdateTaskAsync`: ownership lookup, then
field-wise update, returning the response and the updated store
(`none` when the task is absent or owned by another user). -/
def updateTask (db : List TodoTask) (userId taskId : Nat) (req : UpdateTaskRequest)
    (now : Int) : Option (TaskResponse × List TodoTask) :=
  match getUserTask db userId taskId with
  | none => none
  | some task =>
    let task' := applyUpdate task req now
    some (mapToResponse task', replaceTask db userId taskId task')

/-- Embedding of `TaskService.DeleteTaskAsync`: returns `false` (store
unchanged) when the task is absent or not owned, else `true` with the
task removed. -/
def deleteTask (db : List TodoTask) (userId taskId : Nat) : Bool × List TodoTask :=
  match getUserTask db userId taskId with
  | none => (false, db)
  | some _ => (true, removeTask db userId taskId)

/-- Embedding of `TaskService.ToggleCompletionAsync`: flips
`IsCompleted`, stamps `UpdatedAt`, returns the response and store. -/
def toggleCompletion (db : List TodoTask) (userId taskId : Nat)
    (now : Int) : Option (TaskResponse × List TodoTask) :=
  match getUserTask db userId taskId with
  | none => none
  | some task =>
    let task' := { task with isCompleted := !task.isCompleted, updatedAt := some now }
    some (mapToResponse task', replaceTask db userId taskId task')

/-- Embedding of the DataAnnotations validation on `CreateTaskRequest`,
performed by the framework before `TasksController.CreateTask` runs:
`[Required]` on `Title` (rejects a string that is empty after trimming),
`[MaxLength(200)]` on `Title`, `[MaxLength(2000)]` on `Description`,
`[Range(1,3)]` on `Priority`. -/
def validCreateTaskRequest (req : CreateTaskRequest) : Bool :=
  strTrim req.title != "" && req.title.length ≤ 200 &&
  (match req.description with
   | some d => d.length ≤ 2000
   | none => true) &&
  (1 ≤ req.priority && req.priority ≤ 3)

/-- Embedding of `TaskService.CreateTaskAsync` behind the controller's
model validation: on a valid request, stores a task with the trimmed
title, trimmed description, `IsCompleted = false`, `CreatedAt = now`,
`UpdatedAt = null`; an invalid request is rejected (HTTP 400), modelled
as `none`. `newId` stands for the store-assigned key. -/
def createTask (db : List TodoTask) (userId : Nat) (req : CreateTaskRequest)
    (now : Int) (newId : Nat) : Option (TaskResponse × List TodoTask) :=
  if validCreateTaskRequest req then
    let task : TodoTask :=
      { id := newId
        userId := userId
        title := strTrim req.title
        description := req.description.map (fun s => strTrim s)
        dueDate := req.dueDate
        priority := req.priority
        isCompleted := false
        createdAt := now
        updatedAt := none }
    some (mapToResponse task, db ++ [task])
  else none

/-- Embedding of `TaskService.ApplyFilters` (lines 199–232): each filter
is applied only when its query parameter is present, and the filters are
chained (AND-combined). -/
def applyFilters (query : List TodoTask) (p : TaskQueryParams) : List TodoTask :=
  let q1 := match p.isCompleted with
    | some v => query.filter (fun t => t.isCompleted == v)
    | none => query
  let q2 := match p.priority with
    | some v => q1.filter (fun t => t.priority == v)
    | none => q1
  let q3 := match p.dueBefore with
    | some v => q2.filter (fun t =>
        match t.dueDate with
        | some d => decide (d ≤ v)
        | none => false)
    | none => q2
  let q4 := match p.dueAfter with
    | some v => q3.filter (fun t =>
        match t.dueDate with
        | some d => decide (v ≤ d)
        | none => false)
    | none => q3
  if isNullOrWhiteSpace p.search then q4
  else
    let searchTerm := strToLower (p.search.getD "")
    q4.filter (fun t =>
      strContains (strToLower t.title) searchTerm ||
      (match t.description with
       | some d => strContains (strToLower d) searchTerm
       | none => false))

/-- The conjunction of all supplied filter predicates: one task's view of
`applyFilters`. -/
def matchesFilters (p : TaskQueryParams) (t : TodoTask) : Bool :=
  (match p.isCompleted with
   | some v => t.isCompleted == v
   | none => true) &&
  (match p.priority with
   | some v => t.priority == v
   | none => true) &&
  (match p.dueBefore with
   | some v =>
     match t.dueDate with
     | some d => decide (d ≤ v)
     | none => false
   | none => true) &&
  (match p.dueAfter with
   | some v =>
     match t.dueDate with
     | some d => decide (v ≤ d)
     | none => false
   | none => true) &&
  (if isNullOrWhiteSpace p.search then true
   else
     strContains (strToLower t.title) (strToLower (p.search.getD "")) ||
     (match t.description with
      | some d => strContains (strToLower d) (strToLower (p.search.getD ""))
      | none => false))

/-- Stable insertion of an element into a list sorted by the strict
comparison `lt`: the element is placed after every earlier element whose
key is strictly smaller, before the first element it does not exceed. -/
def insertSorted (lt : TodoTask → TodoTask → Bool) (x : TodoTask) :
    List TodoTask → List TodoTask
  | [] => [x]
  | y :: ys => if lt y x then y :: insertSorted lt x ys else x :: y :: ys

/-- Stable sort by the strict comparison `lt`, modelling LINQ
`OrderBy`/`OrderByDescending` (which are stable and, on the SQLite
provider, have the same null-handling as below). -/
def sortTasks (lt : TodoTask → TodoTask → Bool) : List TodoTask → List TodoTask
  | [] => []
  | x :: xs => insertSorted lt x (sortTasks lt xs)

/-- Strict order on nullable sort keys: both LINQ-to-objects
`Nullable` comparison and SQLite `ORDER BY` treat `NULL` as smaller than
every value. -/
def optIntLt (a b : Option Int) : Bool :=
  match a, b with
  | none, none => false
  | none, some _ => true
  | some _, none => false
  | some x, some y => decide (x < y)

/-- Embedding of `TaskService.ApplySorting` (lines 237–262): switch on
the lowercased sort field with `createdAt` as the default branch;
`OrderByDescending` is the order with the comparison flipped. -/
def applySorting (query : List TodoTask) (p : TaskQueryParams) : List TodoTask :=
  let isDescending := strToLower p.sortDirection == "desc"
  let field := strToLower p.sortBy
  if field == "duedate" then
    if isDescending then sortTasks (fun a b => optIntLt b.dueDate a.dueDate) query
    else sortTasks (fun a b => optIntLt a.dueDate b.dueDate) query
  else if field == "priority" then
    if isDescending then sortTasks (fun a b => decide (b.priority < a.priority)) query
    else sortTasks (fun a b => decide (a.priority < b.priority)) query
  else if field == "title" then
    if isDescending then sortTasks (fun a b => decide (b.title < a.title)) query
    else sortTasks (fun a b => decide (a.title < b.title)) query
  else
    if isDescending then sortTasks (fun a b => decide (b.createdAt < a.createdAt)) query
    else sortTasks (fun a b => decide (a.createdAt < b.createdAt)) query

/-- Embedding of `TaskListResponse` (Models/DTOs). -/
structure TaskListResponse where
  tasks : List TaskResponse
  totalCount : Nat
  completedCount : Nat
  pendingCount : Nat
deriving Repr, DecidableEq

/-- Embedding of `TaskService.GetTasksAsync` (lines 58–88): scope to the
user's tasks, apply filters, take the counts on the filtered query
before sorting (the C# code issues its `CountAsync` calls on the
filtered query, then sorts), with `pending = total - completed`, then
sort and map to DTOs. -/
def getTasks (db : List TodoTask) (userId : Nat) (p : TaskQueryParams) : TaskListResponse :=
  { tasks :=
      (applySorting (applyFilters (db.filter (fun t => t.userId == userId)) p) p).map
        mapToResponse
    totalCount := (applyFilters (db.filter (fun t => t.userId == userId)) p).length
    completedCount :=
      ((applyFilters (db.filter (fun t => t.userId == userId)) p).filter
        (fun t => t.isCompleted)).length
    pendingCount :=
      (applyFilters (db.filter (fun t => t.userId == userId)) p).length -
      ((applyFilters (db.filter (fun t => t.userId == userId)) p).filter
        (fun t => t.isCompleted)).length }

/-- Embedding of `LoginRequest` (Models/DTOs). -/
structure LoginRequest where
  email : String
  password : String
deriving Repr, DecidableEq

/-- Embedding of `RegisterRequest` (Models/DTOs). -/
structure RegisterRequest where
  email : String
  password : String
  confirmPassword : String
deriving Repr, DecidableEq

/-- Embedding of `UserInfo` (Models/DTOs): the user part of a successful
auth response. -/
structure UserInfo where
  id : Nat
  email : String
deriving Repr, DecidableEq

/-- Embedding of `AuthService.LoginAsync` (part_008, lines 95–126),
instrumented with the number of `BCrypt.Verify` calls performed: the
user lookup by normalized email either misses (immediate `null`, zero
verify calls) or hits, in which case exactly one verification runs and
decides the outcome. `verify pwd hash` stands for
`BCrypt.Net.BCrypt.Verify(pwd, hash)`, external to the repository. -/
def loginWithCount (db : List User) (verify : String → String → Bool)
    (req : LoginRequest) : Option UserInfo × Nat :=
  match db.find? (fun u => u.email == normalizeEmail req.email) with
  | none => (none, 0)
  | some user =>
    if verify req.password user.passwordHash then
      (some { id := user.id, email := user.email }, 1)
    else (none, 1)

/-- The result of `AuthService.LoginAsync` (the instrumentation
projected away). -/
def loginAsync (db : List User) (verify : String → String → Bool)
    (req : LoginRequest) : Option UserInfo :=
  (loginWithCount db verify req).1

/-- Embedding of `AuthService.EmailExistsAsync` (part_008, lines 128–132). -/
def emailExists (db : List User) (email : String) : Bool :=
  db.any (fun u => u.email == normalizeEmail email)

/-- Outcome of the store insert performed by `SaveChangesAsync` in
`RegisterAsync`. The store state may have changed between the existence
pre-check and the insert (a concurrent registration), so the insert's
outcome is an input of the model: `duplicateKey` stands for the unique
email index rejecting the row (`DbUpdateException`). -/
inductive InsertOutcome
  | ok
  | duplicateKey
deriving Repr, DecidableEq

/-- Kinds of exception that can cross the service boundary, matching the
catch clauses of `ExceptionMiddleware` (part_009): it maps
`UnauthorizedAccessException` to 401, `ArgumentException` to 400, and
every other exception — `DbUpdateException` included — to a generic 500. -/
inductive ExnKind
  | unauthorizedAccess
  | argumentExn
  | dbUpdateDuplicate
deriving Repr, DecidableEq

/-- Embedding of `AuthService.RegisterAsync` (part_008, lines 61–93):
pre-check with `EmailExistsAsync` returning `null` on a hit; otherwise
insert the new user with normalized email and hashed password. The
`catch` block of `RegisterAsync` rethrows (`throw;`), so a
duplicate-key failure from the store propagates as an exception
(`Except.error`), not as a return value. -/
def registerAsync (db : List User) (insert : InsertOutcome)
    (hash : String → String) (req : RegisterRequest) (newId : Nat)
    (now : Int) : Except ExnKind (Option (UserInfo × List User)) :=
  if emailExists db req.email then Except.ok none
  else
    match insert with
    | InsertOutcome.duplicateKey => Except.error ExnKind.dbUpdateDuplicate
    | InsertOutcome.ok =>
      let user : User :=
        { id := newId
          email := normalizeEmail req.email
          passwordHash := hash req.password
          createdAt := now }
      Except.ok (some ({ id := newId, email := user.email }, db ++ [user]))

/-- HTTP-level outcome of the register endpoint, as produced by
`AuthController.Register` plus `ExceptionMiddleware`. -/
inductive RegisterOutcome
  | created (user : UserInfo)
  | conflict
  | badRequest
  | unauthorized
  | internalError
deriving Repr, DecidableEq

/-- Embedding of `ExceptionMiddleware.InvokeAsync` (part_009, lines
27–53) restricted to the outcome category: `UnauthorizedAccessException`
→ 401, `ArgumentException` → 400, anything else → 500 internal error. -/
def middlewareOutcome : ExnKind → RegisterOutcome
  | ExnKind.unauthorizedAccess => RegisterOutcome.unauthorized
  | ExnKind.argumentExn => RegisterOutcome.badRequest
  | ExnKind.dbUpdateDuplicate => RegisterOutcome.internalError

/-- Embedding of `AuthController.Register` (lines 35–53) composed with
the exception middleware: a `null` service result becomes 409 Conflict,
a non-null result 201 Created, and an exception escaping the service is
handled by `ExceptionMiddleware`. -/
def registerEndpoint (db : List User) (insert : InsertOutcome)
    (hash : String → String) (req : RegisterRequest) (newId : Nat)
    (now : Int) : RegisterOutcome :=
  match registerAsync db insert hash req newId now with
  | Except.error e => middlewareOutcome e
  | Except.ok none => RegisterOutcome.conflict
  | Except.ok (some (u, _)) => RegisterOutcome.created u

/-- Embedding of `JwtSettings` (Models/JwtSettings.cs), with the C#
property initializers as default field values; `ExpirationMinutes`
defaults to 60. -/
structure JwtSettings where
  secretKey : String
  issuer : String := "TodoApi"
  audience : String := "TodoFrontend"
  expirationMinutes : Int := 60
deriving Repr, DecidableEq

/-- Embedding of the expiry computed by `AuthService.GenerateAuthResponse`
(part_008, line 141): `DateTime.UtcNow.AddMinutes(ExpirationMinutes)`,
with time in seconds. -/
def tokenExpiresAt (now : Int) (settings : JwtSettings) : Int :=
  now + settings.expirationMinutes * 60

/-- The lifetime-relevant part of the `TokenValidationParameters`
configured in Program.cs (part_010, lines 64–74):
`ValidateLifetime = true`, `ClockSkew = TimeSpan.Zero`. -/
structure LifetimeValidationConfig where
  validateLifetime : Bool
  clockSkewSeconds : Int
deriving Repr, DecidableEq

/-- The configuration values from Program.cs (part_010). -/
def jwtBearerLifetimeConfig : LifetimeValidationConfig :=
  { validateLifetime := true, clockSkewSeconds := 0 }

/-- Result of the token lifetime check. -/
inductive LifetimeResult
  | valid
  | expired
deriving Repr, DecidableEq

/-- Modelled from the spec: the lifetime comparison itself is performed
by the JWT bearer library, which is not part of this repository's
source; per the spec, validation fails with `Expired` when now is past
the token's expiry beyond the configured clock-skew tolerance, and the
skew configured in Program.cs (part_010) is zero. -/
def checkLifetime (cfg : LifetimeValidationConfig) (now expiresAt : Int) : LifetimeResult :=
  if cfg.validateLifetime && decide (expiresAt < now - cfg.clockSkewSeconds) then
    LifetimeResult.expired
  else LifetimeResult.valid

/-! Supporting lemmas about the embedded operations. -/

theorem mem_insertSorted (lt : TodoTask → TodoTask → Bool) (x : TodoTask) :
    ∀ (l : List TodoTask) (y : TodoTask), y ∈ insertSorted lt x l → y = x ∨ y ∈ l
  | [], y, h => by simpa [insertSorted] using h
  | z :: zs, y, h => by
    simp only [insertSorted] at h
    by_cases hc : lt z x = true
    · rw [if_pos hc] at h
      rcases List.mem_cons.mp h with h | h
      · exact Or.inr (h ▸ List.mem_cons_self z zs)
      · rcases mem_insertSorted lt x zs y h with h | h
        · exact Or.inl h
        · exact Or.inr (List.mem_cons_of_mem z h)
    · rw [if_neg hc] at h
      rcases List.mem_cons.mp h with h | h
      · exact Or.inl h
      · exact Or.inr h

theorem mem_sortTasks (lt : TodoTask → TodoTask → Bool) :
    ∀ (l : List TodoTask) (y : TodoTask), y ∈ sortTasks lt l → y ∈ l
  | [], _, h => by simpa [sortTasks] using h
  | x :: xs, y, h => by
    simp only [sortTasks] at h
    rcases mem_insertSorted lt x (sortTasks lt xs) y h with h | h
    · exact h ▸ List.mem_cons_self x xs
    · exact List.mem_cons_of_mem x (mem_sortTasks lt xs y h)

theorem length_insertSorted (lt : TodoTask → TodoTask → Bool) (x : TodoTask) :
    ∀ l : List TodoTask, (insertSorted lt x l).length = l.length + 1
  | [] => rfl
  | z :: zs => by
    simp only [insertSorted]
    by_cases hc : lt z x = true
    · rw [if_pos hc]
      simp [length_insertSorted lt x zs]
    · rw [if_neg hc]
      simp

theorem length_sortTasks (lt : TodoTask → TodoTask → Bool) :
    ∀ l : List TodoTask, (sortTasks lt l).length = l.length
  | [] => rfl
  | x :: xs => by
    simp only [sortTasks, length_insertSorted, length_sortTasks lt xs, List.length_cons]

theorem pairwise_insertSorted (lt : TodoTask → TodoTask → Bool)
    (hasym : ∀ a b, lt a b = true → lt b a = false)
    (htr : ∀ a b c, lt b a = false → lt c b = false → lt c a = false)
    (x : TodoTask) :
    ∀ l : List TodoTask, l.Pairwise (fun a b => lt b a = false) →
      (insertSorted lt x l).Pairwise (fun a b => lt b a = false)
  | [], _ => by simp [insertSorted]
  | y :: ys, h => by
    rcases List.pairwise_cons.mp h with ⟨hy, hys⟩
    simp only [insertSorted]
    by_cases hc : lt y x = true
    · rw [if_pos hc]
      refine List.pairwise_cons.mpr ⟨?_, pairwise_insertSorted lt hasym htr x ys hys⟩
      intro z hz
      rcases mem_insertSorted lt x ys z hz with rfl | hz
      · exact hasym _ _ hc
      · exact hy z hz
    · rw [if_neg hc]
      have hyx : lt y x = false := by
        revert hc; cases lt y x <;> simp
      refine List.pairwise_cons.mpr ⟨?_, h⟩
      intro z hz
      rcases List.mem_cons.mp hz with rfl | hz
      · exact hyx
      · exact htr x y z hyx (hy z hz)

theorem pairwise_sortTasks (lt : TodoTask → TodoTask → Bool)
    (hasym : ∀ a b, lt a b = true → lt b a = false)
    (htr : ∀ a b c, lt b a = false → lt c b = false → lt c a = false) :
    ∀ l : List TodoTask, (sortTasks lt l).Pairwise (fun a b => lt b a = false)
  | [] => by simp [sortTasks]
  | x :: xs => by
    simp only [sortTasks]
    exact pairwise_insertSorted lt hasym htr x (sortTasks lt xs)
      (pairwise_sortTasks lt hasym htr xs)

theorem optIntLt_asymm (a b : Option Int) : optIntLt a b = true → optIntLt b a = false := by
  cases a <;> cases b <;> simp [optIntLt] <;> omega

theorem optIntLt_negtrans (a b c : Option Int) :
    optIntLt b a = false → optIntLt c b = false → optIntLt c a = false := by
  cases a <;> cases b <;> cases c <;> simp [optIntLt] <;> omega

theorem applyFilters_eq_filter (l : List TodoTask) (p : TaskQueryParams) :
    applyFilters l p = l.filter (matchesFilters p) := by
  unfold applyFilters matchesFilters
  cases hic : p.isCompleted <;> cases hpr : p.priority <;>
    cases hdb : p.dueBefore <;> cases hda : p.dueAfter <;>
    by_cases hs : isNullOrWhiteSpace p.search = true <;>
    simp only [hs, if_true, if_false, Bool.true_and, Bool.and_true, List.filter_filter,
      Bool.and_assoc, eq_self_iff_true, if_pos, if_neg, Bool.not_eq_true] <;>
    first
      | rfl
      | (exact (List.filter_true l).symm)
      | (apply List.filter_congr; intro t _;
         cases t.dueDate <;> cases t.description <;>
           simp [hs, Bool.and_comm, Bool.and_assoc, Bool.and_left_comm])

theorem length_applySorting (l : List TodoTask) (p : TaskQueryParams) :
    (applySorting l p).length = l.length := by
  unfold applySorting
  dsimp only
  split_ifs <;> exact length_sortTasks _ _

theorem mem_applySorting (l : List TodoTask) (p : TaskQueryParams) (y : TodoTask)
    (h : y ∈ applySorting l p) : y ∈ l := by
  unfold applySorting at h
  dsimp only at h
  split_ifs at h <;> exact mem_sortTasks _ _ _ h

theorem getUserTask_owner (db : List TodoTask) (a : Nat) (t : TodoTask)
    (hmem : t ∈ db) (hown : t.userId = a)
    (huniq : ∀ t1 ∈ db, ∀ t2 ∈ db, t1.id = t2.id → t1 = t2) :
    getUserTask db a t.id = some t := by
  unfold getUserTask
  cases h : db.find? (fun x => x.id == t.id && x.userId == a) with
  | none =>
    exfalso
    have hnone := List.find?_eq_none.mp h t hmem
    simp [hown] at hnone
  | some t' =>
    have hp := List.find?_some h
    have hmem' := List.mem_of_find?_eq_some h
    simp only [Bool.and_eq_true, beq_iff_eq] at hp
    rw [huniq t' hmem' t hmem hp.1]

theorem getUserTask_other (db : List TodoTask) (a b : Nat) (t : TodoTask)
    (hmem : t ∈ db) (hown : t.userId = a) (hne : b ≠ a)
    (huniq : ∀ t1 ∈ db, ∀ t2 ∈ db, t1.id = t2.id → t1 = t2) :
    getUserTask db b t.id = none := by
  unfold getUserTask
  cases h : db.find? (fun x => x.id == t.id && x.userId == b) with
  | none => rfl
  | some t' =>
    exfalso
    have hp := List.find?_some h
    have hmem' := List.mem_of_find?_eq_some h
    simp only [Bool.and_eq_true, beq_iff_eq] at hp
    have heq := huniq t' hmem' t hmem hp.1
    exact hne (by rw [← hp.2, heq, hown])

theorem getUserTask_absent (db : List TodoTask) (u fid : Nat)
    (hfresh : ∀ t' ∈ db, t'.id ≠ fid) :
    getUserTask db u fid = none := by
  unfold getUserTask
  apply List.find?_eq_none.mpr
  intro x hx
  simp only [Bool.and_eq_true, beq_iff_eq, not_and]
  intro hid
  exact absurd hid (hfresh x hx)

/-! Sort-order predicates on due dates, and the claim statements that
refer to them. -/

/-- Tasks without a due date all appear before every task that has one. -/
def nullsFirst (l : List TodoTask) : Prop :=
  l.Pairwise (fun a b => a.dueDate = none ∨ b.dueDate ≠ none)

/-- Tasks without a due date all appear after every task that has one. -/
def nullsLast (l : List TodoTask) : Prop :=
  l.Pairwise (fun a b => a.dueDate ≠ none ∨ b.dueDate = none)

/-- The claim as stated: sorting by due date places null-due-date tasks
last regardless of the direction. -/
def claimC5Statement : Prop :=
  ∀ (l : List TodoTask) (p : TaskQueryParams),
    strToLower p.sortBy = "duedate" → nullsLast (applySorting l p)

/-- A task with no due date, for the concrete counterexamples. -/
def cxNullTask : TodoTask :=
  { id := 1, userId := 1, title := "a", description := none, dueDate := none,
    priority := 2, isCompleted := false, createdAt := 0, updatedAt := none }

/-- A task with a due date, for the concrete counterexamples. -/
def cxDatedTask : TodoTask :=
  { id := 2, userId := 1, title := "b", description := none, dueDate := some 5,
    priority := 2, isCompleted := false, createdAt := 1, updatedAt := none }

/-- Query parameters sorting by due date ascending. -/
def cxDueAscParams : TaskQueryParams :=
  { isCompleted := none, priority := none, dueBefore := none, dueAfter := none,
    search := none, sortBy := "dueDate", sortDirection := "asc" }

/-- Claim C5, counterexample: sorting `[cxNullTask, cxDatedTask]` by
`dueDate asc` puts the task with no due date first, not last — the null
key sorts as the smallest value, so "nulls last regardless of direction"
is false for the ascending direction. -/
theorem dueDate_asc_nulls_first_counterexample : ¬ claimC5Statement := by
  intro h
  have hc := h [cxNullTask, cxDatedTask] cxDueAscParams (by decide)
  unfold nullsLast at hc
  revert hc
  decide

/-- Claim C5 (amended): sorting by `dueDate` treats a null due date as
the smallest key — tasks with no due date come first under `asc` and
last under `desc`. -/
theorem dueDate_sort_null_position (l : List TodoTask) (p : TaskQueryParams)
    (hf : strToLower p.sortBy = "duedate") :
    (strToLower p.sortDirection ≠ "desc" → nullsFirst (applySorting l p)) ∧
    (strToLower p.sortDirection = "desc" → nullsLast (applySorting l p)) := by
  constructor
  · intro hd
    have h2 : (strToLower p.sortDirection == "desc") = false := by
      simpa using hd
    unfold applySorting
    dsimp only
    rw [hf, h2]
    simp only [if_false, Bool.false_eq_true, beq_self_eq_true, if_true, reduceIte]
    have hp := pairwise_sortTasks (fun a b => optIntLt a.dueDate b.dueDate)
      (fun a b hab => optIntLt_asymm _ _ hab)
      (fun a b c h1 h2 => optIntLt_negtrans _ _ _ h1 h2) l
    refine hp.imp ?_
    intro a b hab
    cases ha : a.dueDate with
    | none => exact Or.inl rfl
    | some x =>
      cases hb : b.dueDate with
      | none =>
        exfalso
        rw [ha, hb] at hab
        simp [optIntLt] at hab
      | some y => exact Or.inr (by simp [hb])
  · intro hd
    have h2 : (strToLower p.sortDirection == "desc") = true := by
      simpa using hd
    unfold applySorting
    dsimp only
    rw [hf, h2]
    simp only [beq_self_eq_true, if_true, reduceIte]
    have hp := pairwise_sortTasks (fun a b => optIntLt b.dueDate a.dueDate)
      (fun a b hab => optIntLt_asymm _ _ hab)
      (fun a b c h1 h2 => optIntLt_negtrans _ _ _ h2 h1) l
    refine hp.imp ?_
    intro a b hab
    cases ha : a.dueDate with
    | some x => exact Or.inl (by simp [ha])
    | none =>
      cases hb : b.dueDate with
      | none => exact Or.inr rfl
      | some y =>
        exfalso
        rw [ha, hb] at hab
        simp [optIntLt] at hab

/-- Witness for the amended C5 theorem at concrete inputs. -/
theorem dueDate_sort_null_position_witness :
    nullsFirst (applySorting [cxNullTask, cxDatedTask] cxDueAscParams) ∧
    nullsLast (applySorting [cxNullTask, cxDatedTask]
      { cxDueAscParams with sortDirection := "desc" }) :=
  ⟨(dueDate_sort_null_position [cxNullTask, cxDatedTask] cxDueAscParams (by decide)).1
      (by decide),
   (dueDate_sort_null_position [cxNullTask, cxDatedTask]
      { cxDueAscParams with sortDirection := "desc" } (by decide)).2 (by decide)⟩

/-- Claim C6: the `list` counts are taken over the filtered set —
`total` is the number of the user's tasks passing every supplied filter
(AND-combined, `matchesFilters`), `completed` counts the filtered tasks
with the completion flag, `pending = total - completed` (so
`completed + pending = total`), and the returned task list has exactly
`total` elements (counts are unaffected by sorting; no limiting
exists). -/
theorem getTasks_counts_over_filtered_set (db : List TodoTask) (u : Nat)
    (p : TaskQueryParams) :
    (getTasks db u p).totalCount
        = ((db.filter (fun t => t.userId == u)).filter (matchesFilters p)).length ∧
    (getTasks db u p).completedCount
        = (((db.filter (fun t => t.userId == u)).filter (matchesFilters p)).filter
            (fun t => t.isCompleted)).length ∧
    (getTasks db u p).pendingCount
        = (getTasks db u p).totalCount - (getTasks db u p).completedCount ∧
    (getTasks db u p).completedCount + (getTasks db u p).pendingCount
        = (getTasks db u p).totalCount ∧
    (getTasks db u p).tasks.length = (getTasks db u p).totalCount := by
  refine ⟨?_, ?_, rfl, ?_, ?_⟩
  · simp [getTasks, applyFilters_eq_filter]
  · simp [getTasks, applyFilters_eq_filter]
  · have hle := List.length_filter_le (fun t => t.isCompleted)
      (applyFilters (db.filter (fun t => t.userId == u)) p)
    simp only [getTasks]
    omega
  · simp [getTasks, length_applySorting]

/-- Claim C1: tenant isolation. For a task `t` owned by user `a` in a
store with unique task ids, a `list` call by any other user `b` never
returns `t`; `get`/`update`/`delete`/`toggleCompletion` by `b` on
`t.id` fail exactly as they do on an id that exists for nobody
(`none`, resp. `false` with the store unchanged); and `a`'s own calls on
`t.id` succeed. -/
theorem tenant_isolation (db : List TodoTask) (a b fid : Nat) (t : TodoTask)
    (req : UpdateTaskRequest) (now : Int)
    (hmem : t ∈ db) (hown : t.userId = a) (hne : b ≠ a)
    (huniq : ∀ t1 ∈ db, ∀ t2 ∈ db, t1.id = t2.id → t1 = t2)
    (hfresh : ∀ t' ∈ db, t'.id ≠ fid) :
    (∀ (p : TaskQueryParams) (r : TaskResponse),
        r ∈ (getTasks db b p).tasks → r.id ≠ t.id) ∧
    getTaskById db b t.id = none ∧
    getTaskById db b fid = none ∧
    updateTask db b t.id req now = none ∧
    updateTask db b fid req now = none ∧
    deleteTask db b t.id = (false, db) ∧
    deleteTask db b fid = (false, db) ∧
    toggleCompletion db b t.id now = none ∧
    toggleCompletion db b fid now = none ∧
    getTaskById db a t.id = some (mapToResponse t) ∧
    (updateTask db a t.id req now).isSome = true ∧
    (deleteTask db a t.id).1 = true ∧
    (toggleCompletion db a t.id now).isSome = true := by
  have hB := getUserTask_other db a b t hmem hown hne huniq
  have hA := getUserTask_owner db a t hmem hown huniq
  have hFb := getUserTask_absent db b fid hfresh
  refine ⟨?_, ?_, ?_, ?_, ?_, ?_, ?_, ?_, ?_, ?_, ?_, ?_, ?_⟩
  · intro p r hr
    rcases List.mem_map.mp hr with ⟨t', ht'sorted, hmap⟩
    have ht'filtered := mem_applySorting _ _ _ ht'sorted
    rw [applyFilters_eq_filter] at ht'filtered
    have ht'base := (List.mem_filter.mp ht'filtered).1
    rcases List.mem_filter.mp ht'base with ⟨ht'db, ht'own⟩
    intro hid
    have htid : t'.id = t.id := by
      have : r.id = t'.id := by rw [← hmap]; rfl
      rw [← this, hid]
    have := huniq t' ht'db t hmem htid
    rw [this] at ht'own
    simp only [beq_iff_eq] at ht'own
    exact hne (by rw [← ht'own, hown])
  · simp [getTaskById, hB]
  · simp [getTaskById, hFb]
  · simp [updateTask, hB]
  · simp [updateTask, hFb]
  · simp [deleteTask, hB]
  · simp [deleteTask, hFb]
  · simp [toggleCompletion, hB]
  · simp [toggleCompletion, hFb]
  · simp [getTaskById, hA]
  · simp [updateTask, hA]
  · simp [deleteTask, hA]
  · simp [toggleCompletion, hA]

/-- A concrete owned task for the tenant-isolation witness. -/
def wTask : TodoTask :=
  { id := 1, userId := 1, title := "mine", description := none, dueDate := none,
    priority := 2, isCompleted := false, createdAt := 0, updatedAt := none }

/-- A concrete update request for the witnesses. -/
def wUpdateReq : UpdateTaskRequest :=
  { title := none, description := none, dueDate := none, priority := some 3,
    isCompleted := none }

/-- Witness for C1 at a concrete store: user 1 owns task 1; user 2's
calls fail like calls on the unused id 99; user 1's calls succeed. -/
theorem tenant_isolation_witness :
    (∀ (p : TaskQueryParams) (r : TaskResponse),
        r ∈ (getTasks [wTask] 2 p).tasks → r.id ≠ wTask.id) ∧
    getTaskById [wTask] 2 wTask.id = none ∧
    getTaskById [wTask] 2 99 = none ∧
    updateTask [wTask] 2 wTask.id wUpdateReq 5 = none ∧
    updateTask [wTask] 2 99 wUpdateReq 5 = none ∧
    deleteTask [wTask] 2 wTask.id = (false, [wTask]) ∧
    deleteTask [wTask] 2 99 = (false, [wTask]) ∧
    toggleCompletion [wTask] 2 wTask.id 5 = none ∧
    toggleCompletion [wTask] 2 99 5 = none ∧
    getTaskById [wTask] 1 wTask.id = some (mapToResponse wTask) ∧
    (updateTask [wTask] 1 wTask.id wUpdateReq 5).isSome = true ∧
    (deleteTask [wTask] 1 wTask.id).1 = true ∧
    (toggleCompletion [wTask] 1 wTask.id 5).isSome = true :=
  tenant_isolation [wTask] 1 2 99 wTask wUpdateReq 5 (by decide) (by decide)
    (by decide) (by decide) (by decide)

/-- Claim C3: a login whose email lookup misses and a login whose
password fails verification return the identical result value — both
yield `none` (the controller then maps either `null` to the same
`Invalid email or password` 401 response), so the caller cannot tell a
nonexistent account from a wrong password. -/
theorem login_identical_failure (db : List User) (verify : String → String → Bool)
    (req : LoginRequest) :
    (db.find? (fun u => u.email == normalizeEmail req.email) = none →
      loginAsync db verify req = none) ∧
    (∀ u, db.find? (fun u => u.email == normalizeEmail req.email) = some u →
      verify req.password u.passwordHash = false →
      loginAsync db verify req = none) := by
  constructor
  · intro h
    simp [loginAsync, loginWithCount, h]
  · intro u hu hv
    simp [loginAsync, loginWithCount, hu, hv]

/-- A registered user fixture for the login witnesses. -/
def wUser : User :=
  { id := 1, email := "x@y.z", passwordHash := "h", createdAt := 0 }

/-- Witness for C3: with no matching user, and with a matching user but
failing verification, login returns the same `none`. -/
theorem login_identical_failure_witness :
    loginAsync [] (fun _ _ => false) { email := "x@y.z", password := "p" } = none ∧
    loginAsync [wUser] (fun _ _ => false) { email := "x@y.z", password := "p" } = none :=
  ⟨(login_identical_failure [] (fun _ _ => false)
      { email := "x@y.z", password := "p" }).1 (by decide),
   (login_identical_failure [wUser] (fun _ _ => false)
      { email := "x@y.z", password := "p" }).2 wUser (by decide) rfl⟩

/-- The C4 claim as stated: on an email-lookup miss, login still
performs at least one password-verification call. -/
def claimC4Statement : Prop :=
  ∀ (db : List User) (verify : String → String → Bool) (req : LoginRequest),
    db.find? (fun u => u.email == normalizeEmail req.email) = none →
    1 ≤ (loginWithCount db verify req).2

/-- Claim C4, counterexample: `LoginAsync` returns as soon as the lookup
misses — on the empty store the verify-call count is 0, so no dummy
verification is performed. -/
theorem login_no_dummy_verify_counterexample : ¬ claimC4Statement := by
  intro h
  have hc := h [] (fun _ _ => true) { email := "a@b.c", password := "p" } rfl
  revert hc
  decide

/-- Claim C4 (amended): on an email-lookup miss, login fails immediately
and performs no password-verification call at all (the count is 0). -/
theorem login_miss_skips_verify (db : List User) (verify : String → String → Bool)
    (req : LoginRequest)
    (h : db.find? (fun u => u.email == normalizeEmail req.email) = none) :
    loginWithCount db verify req = (none, 0) := by
  simp [loginWithCount, h]

/-- Witness for the amended C4 theorem. -/
theorem login_miss_skips_verify_witness :
    loginWithCount [] (fun _ _ => true) { email := "a@b.c", password := "p" } = (none, 0) :=
  login_miss_skips_verify [] (fun _ _ => true) { email := "a@b.c", password := "p" } rfl

/-- The C2 claim as stated: when the pre-check passes but the store
insert fails with a duplicate-key error, registration returns the
Conflict outcome. -/
def claimC2Statement : Prop :=
  ∀ (db : List User) (hash : String → String) (req : RegisterRequest)
    (newId : Nat) (now : Int),
    emailExists db req.email = false →
    registerEndpoint db InsertOutcome.duplicateKey hash req newId now
      = RegisterOutcome.conflict

/-- Claim C2: the code does not translate a duplicate-key store failure
into Conflict. `RegisterAsync` rethrows the exception, the controller
does not catch it, and `ExceptionMiddleware`'s catch-all turns it into a
generic 500 internal error — evaluated here at a concrete input where
the pre-check passes and the insert hits the unique email index. -/
theorem register_duplicate_key_returns_internal :
    ¬ claimC2Statement ∧
    registerEndpoint [] InsertOutcome.duplicateKey (fun s => s)
        { email := "a@b.c", password := "password1", confirmPassword := "password1" } 7 0
      = RegisterOutcome.internalError := by
  constructor
  · intro h
    have hc := h [] (fun s => s)
      { email := "a@b.c", password := "password1", confirmPassword := "password1" } 7 0
      (by decide)
    revert hc
    decide
  · rfl

/-- Claim C7: with the configured validation parameters
(`ValidateLifetime = true`, `ClockSkew = zero`), the lifetime check
fails with `Expired` exactly when now is past the token's expiry — no
grace window — and a token issued under the default settings (the single
configured `ExpirationMinutes`, defaulting to 60) expires 60 minutes
after issuance. -/
theorem token_expiry_policy (now expiresAt issuedAt : Int) (key : String) :
    (checkLifetime jwtBearerLifetimeConfig now expiresAt = LifetimeResult.expired ↔
      expiresAt < now) ∧
    ({ secretKey := key : JwtSettings }).expirationMinutes = 60 ∧
    tokenExpiresAt issuedAt { secretKey := key } = issuedAt + 60 * 60 := by
  refine ⟨?_, rfl, rfl⟩
  unfold checkLifetime jwtBearerLifetimeConfig
  constructor
  · intro h
    by_contra hc
    have hn : ¬ (expiresAt < now - 0) := by omega
    simp [hn] at h
    omega
  · intro h
    have hp : expiresAt < now - 0 := by omega
    simp [hp]
    omega

/-- Witness for C7: one second past expiry is `Expired`; the default
expiry is issuance + 3600 seconds. -/
theorem token_expiry_policy_witness :
    checkLifetime jwtBearerLifetimeConfig 11 10 = LifetimeResult.expired ∧
    tokenExpiresAt 0 { secretKey := "k" } = 0 + 60 * 60 :=
  ⟨(token_expiry_policy 11 10 0 "k").1.mpr (by decide),
   (token_expiry_policy 11 10 0 "k").2.2⟩

/-- Claim C8: every stored created task carries the request title with
surrounding whitespace trimmed; a request whose title is empty after
trimming (whitespace-only included) is rejected, as is a title longer
than 200 characters. -/
theorem create_trims_and_validates_title (db : List TodoTask) (u : Nat)
    (req : CreateTaskRequest) (now : Int) (nid : Nat) :
    (∀ r db', createTask db u req now nid = some (r, db') → r.title = strTrim req.title) ∧
    (strTrim req.title = "" → createTask db u req now nid = none) ∧
    (200 < req.title.length → createTask db u req now nid = none) := by
  refine ⟨?_, ?_, ?_⟩
  · intro r db' h
    unfold createTask at h
    split at h
    · simp only [Option.some.injEq, Prod.mk.injEq] at h
      rw [← h.1]
      rfl
    · exact absurd h (by simp)
  · intro h
    have hv : validCreateTaskRequest req = false := by
      unfold validCreateTaskRequest
      simp [h]
    simp [createTask, hv]
  · intro h
    have hv : validCreateTaskRequest req = false := by
      unfold validCreateTaskRequest
      have : decide (req.title.length ≤ 200) = false := by
        simp
        omega
      simp [this]
    simp [createTask, hv]

/-- Witness for C8: a whitespace-only title is rejected, and a padded
title is stored trimmed. -/
theorem create_trims_and_validates_title_witness :
    createTask [] 1 { title := "   ", description := none, dueDate := none, priority := 2 }
        0 1 = none ∧
    (∀ r db', createTask [] 1
        { title := " Buy milk ", description := none, dueDate := none, priority := 2 }
        0 1 = some (r, db') → r.title = strTrim " Buy milk ") :=
  ⟨(create_trims_and_validates_title [] 1
      { title := "   ", description := none, dueDate := none, priority := 2 } 0 1).2.1
      (by decide),
   (create_trims_and_validates_title [] 1
      { title := " Buy milk ", description := none, dueDate := none, priority := 2 } 0 1).1⟩

/-- Claim C9: on an accepted update of an owned task, every field absent
from the request keeps its prior value, every field present takes the
requested value, the identity and creation fields never change, and
`updatedAt` is stamped with the current time. -/
theorem update_partial_semantics (db : List TodoTask) (u tid : Nat)
    (req : UpdateTaskRequest) (now : Int) (task : TodoTask)
    (h : getUserTask db u tid = some task) :
    updateTask db u tid req now
      = some (mapToResponse (applyUpdate task req now),
              replaceTask db u tid (applyUpdate task req now)) ∧
    (applyUpdate task req now).updatedAt = some now ∧
    (req.title = none → (applyUpdate task req now).title = task.title) ∧
    (req.description = none →
      (applyUpdate task req now).description = task.description) ∧
    (req.dueDate = none → (applyUpdate task req now).dueDate = task.dueDate) ∧
    (req.priority = none → (applyUpdate task req now).priority = task.priority) ∧
    (req.isCompleted = none →
      (applyUpdate task req now).isCompleted = task.isCompleted) ∧
    (∀ s, req.title = some s → (applyUpdate task req now).title = strTrim s) ∧
    (∀ s, req.description = some s →
      (applyUpdate task req now).description = some (strTrim s)) ∧
    (∀ d, req.dueDate = some d → (applyUpdate task req now).dueDate = some d) ∧
    (∀ v, req.priority = some v → (applyUpdate task req now).priority = v) ∧
    (∀ c, req.isCompleted = some c → (applyUpdate task req now).isCompleted = c) ∧
    (applyUpdate task req now).id = task.id ∧
    (applyUpdate task req now).userId = task.userId ∧
    (applyUpdate task req now).createdAt = task.createdAt := by
  refine ⟨by simp [updateTask, h], ?_⟩
  rcases req with ⟨rt, rd, rdd, rp, rc⟩
  cases rt <;> cases rd <;> cases rdd <;> cases rp <;> cases rc <;>
    simp [applyUpdate]

/-- A task with every optional field set, for the update witnesses. -/
def wFullTask : TodoTask :=
  { id := 4, userId := 1, title := "t", description := some "d", dueDate := some 9,
    priority := 1, isCompleted := false, createdAt := 0, updatedAt := none }

/-- Witness for C9: updating only the priority of `wFullTask` keeps all
other fields and stamps `updatedAt`. -/
theorem update_partial_semantics_witness :
    updateTask [wFullTask] 1 4 wUpdateReq 5
      = some (mapToResponse (applyUpdate wFullTask wUpdateReq 5),
              replaceTask [wFullTask] 1 4 (applyUpdate wFullTask wUpdateReq 5)) ∧
    (applyUpdate wFullTask wUpdateReq 5).updatedAt = some 5 ∧
    (wUpdateReq.title = none →
      (applyUpdate wFullTask wUpdateReq 5).title = wFullTask.title) ∧
    (wUpdateReq.description = none →
      (applyUpdate wFullTask wUpdateReq 5).description = wFullTask.description) ∧
    (wUpdateReq.dueDate = none →
      (applyUpdate wFullTask wUpdateReq 5).dueDate = wFullTask.dueDate) ∧
    (wUpdateReq.priority = none →
      (applyUpdate wFullTask wUpdateReq 5).priority = wFullTask.priority) ∧
    (wUpdateReq.isCompleted = none →
      (applyUpdate wFullTask wUpdateReq 5).isCompleted = wFullTask.isCompleted) ∧
    (∀ s, wUpdateReq.title = some s →
      (applyUpdate wFullTask wUpdateReq 5).title = strTrim s) ∧
    (∀ s, wUpdateReq.description = some s →
      (applyUpdate wFullTask wUpdateReq 5).description = some (strTrim s)) ∧
    (∀ d, wUpdateReq.dueDate = some d →
      (applyUpdate wFullTask wUpdateReq 5).dueDate = some d) ∧
    (∀ v, wUpdateReq.priority = some v →
      (applyUpdate wFullTask wUpdateReq 5).priority = v) ∧
    (∀ c, wUpdateReq.isCompleted = some c →
      (applyUpdate wFullTask wUpdateReq 5).isCompleted = c) ∧
    (applyUpdate wFullTask wUpdateReq 5).id = wFullTask.id ∧
    (applyUpdate wFullTask wUpdateReq 5).userId = wFullTask.userId ∧
    (applyUpdate wFullTask wUpdateReq 5).createdAt = wFullTask.createdAt :=
  update_partial_semantics [wFullTask] 1 4 wUpdateReq 5 wFullTask (by decide)

/-- Claim C10: a null request field is treated as absent, so update can
never clear an optional field — with a null `dueDate`/`description`/
`title` in the request the stored field is unchanged, and a task that
has a due date or description still has one after any accepted update. -/
theorem update_cannot_clear_fields (db : List TodoTask) (u tid : Nat)
    (req : UpdateTaskRequest) (now : Int) (task : TodoTask)
    (h : getUserTask db u tid = some task) :
    ∀ resp db', updateTask db u tid req now = some (resp, db') →
      (req.dueDate = none → resp.dueDate = task.dueDate) ∧
      (req.description = none → resp.description = task.description) ∧
      (req.title = none → resp.title = task.title) ∧
      (task.dueDate.isSome = true → resp.dueDate.isSome = true) ∧
      (task.description.isSome = true → resp.description.isSome = true) := by
  intro resp db' heq
  rw [updateTask, h] at heq
  simp only [Option.some.injEq, Prod.mk.injEq] at heq
  rw [← heq.1]
  rcases req with ⟨rt, rd, rdd, rp, rc⟩
  cases rt <;> cases rd <;> cases rdd <;> cases rp <;> cases rc <;>
    simp [applyUpdate, mapToResponse]

/-- Witness for C10: an accepted priority-only update of a task with a
due date and description leaves both present and unchanged. -/
theorem update_cannot_clear_fields_witness :
    (wUpdateReq.dueDate = none →
      (mapToResponse (applyUpdate wFullTask wUpdateReq 5)).dueDate = wFullTask.dueDate) ∧
    (wUpdateReq.description = none →
      (mapToResponse (applyUpdate wFullTask wUpdateReq 5)).description
        = wFullTask.description) ∧
    (wUpdateReq.title = none →
      (mapToResponse (applyUpdate wFullTask wUpdateReq 5)).title = wFullTask.title) ∧
    (wFullTask.dueDate.isSome = true →
      (mapToResponse (applyUpdate wFullTask wUpdateReq 5)).dueDate.isSome = true) ∧
    (wFullTask.description.isSome = true →
      (mapToResponse (applyUpdate wFullTask wUpdateReq 5)).description.isSome = true) :=
  update_cannot_clear_fields [wFullTask] 1 4 wUpdateReq 5 wFullTask (by decide)
    (mapToResponse (applyUpdate wFullTask wUpdateReq 5))
    (replaceTask [wFullTask] 1 4 (applyUpdate wFullTask wUpdateReq 5)) (by decide)

end TodoNet
